import Mathlib

/-!
Verification of the warm-start state cache of `switch_model/utilities/gurobi_aug.py`.

The development shallowly embeds the Python classes `PicklableData`, `CBasis`,
`VBasis`, `WarmStartData` and the methods `GurobiAugmented._warm_start` /
`GurobiAugmented._save_warm_start`.  Python lists and numpy arrays become Lean
lists; numpy `uint8` and `bool` casts become explicit arithmetic on `Int`/`Bool`;
Python exceptions become an explicit error type threaded through `Except`.
Values of dtype `float` are carried by an arbitrary type parameter (the code
only stores and retrieves them, it never computes with them), instantiated with
`Rat` where a concrete carrier is needed.
-/

/-- Errors.  The first two constructors model exceptions the Python runtime can
actually raise in this code (`IndexError` from an out-of-range list/array
assignment, `KeyError` from a failed dict lookup, `AttributeError` from reading
an attribute `__setstate__` never set, and the bare `Exception` raised when no
warm-start input file was given).  The remaining constructors name the error
conditions the specification postulates, so that statements about them can be
settled against the code. -/
inductive StoreError where
  | indexError
  | keyError (name : String)
  | attributeError
  | missingWarmStartInput
  | alreadyFrozen
  | unsupportedBasisCode
  | notSupportedForDiscreteProgram
  | corruptBundle
  deriving DecidableEq, Repr

/-- Embedding of `PicklableData`.  `_names` is the Python list initialised to
`[""] * n`, `_vals` the numpy array (its uninitialised `np.empty` contents are
modelled by an explicit garbage value at construction), `_dict` the lazily
built lookup dictionary.  `next_index` and `n` are `Option` because
`__setstate__` does not set them: an unpickled object lacks these attributes
and reading them raises `AttributeError`. -/
structure PicklableData (α : Type) where
  _names : List String
  _vals : List α
  _dict : Option (List (String × α))
  next_index : Option Nat
  n : Option Nat
  deriving DecidableEq, Repr

namespace PicklableData

/-- `__init__(n, val_dtype)`: `_names = [""] * n`, `_vals = np.empty(n, dtype)`.
The unspecified contents of `np.empty` are modelled by the explicit garbage
value `g`. -/
def init (n : Nat) (g : α) : PicklableData α :=
  { _names := List.replicate n ""
    _vals := List.replicate n g
    _dict := none
    next_index := some 0
    n := some n }

/-- `save_component(component, val)`: writes `component.name` and `val` at
position `next_index` and increments it.  A write past the end of the list or
array raises `IndexError`; a missing `next_index` attribute (object restored by
`__setstate__`) raises `AttributeError`. -/
def save_component (s : PicklableData α) (name : String) (val : α) :
    Except StoreError (PicklableData α) :=
  match s.next_index with
  | none => .error .attributeError
  | some i =>
    if i < s._names.length then
      if i < s._vals.length then
        .ok { s with
          _names := s._names.set i name
          _vals := s._vals.set i val
          next_index := some (i + 1) }
      else .error .indexError
    else .error .indexError

/-- Lookup in a Python dict built by a comprehension: for duplicate keys the
last binding wins. -/
def pyDictFind (l : List (String × α)) (k : String) : Option α :=
  l.foldl (fun acc p => if p.1 = k then some p.2 else acc) none

/-- `_get_dict()`: `{n: v for n, v in zip(self._names, self._vals)}`. -/
def _get_dict (s : PicklableData α) : List (String × α) :=
  s._names.zip s._vals

/-- The dictionary `get_component` consults: the cached `_dict` if already
built, otherwise the one `_get_dict` would build now. -/
def storeDict (s : PicklableData α) : List (String × α) :=
  match s._dict with
  | some d => d
  | none => s._get_dict

/-- `get_component(component)`: builds `_dict` on the first call (and caches
it), then looks `component.name` up, raising `KeyError` on a miss.  The store
with the possibly newly cached dictionary is returned alongside the result,
since the caching is a mutation that persists even when `KeyError` is raised. -/
def get_component (s : PicklableData α) (name : String) :
    Except StoreError α × PicklableData α :=
  let d := s.storeDict
  let s' := { s with _dict := some d }
  match pyDictFind d name with
  | some v => (.ok v, s')
  | none => (.error (.keyError name), s')

/-- `__getstate__()`: the pair that gets pickled, `(np.array(self._names),
self._vals)`. -/
def getstate (s : PicklableData α) : List String × List α :=
  (s._names, s._vals)

/-- `__setstate__(state)`: restores `_names` and `_vals` from the pickled pair
and resets `_dict`; `next_index` and `n` are not set. -/
def setstate (st : List String × List α) : PicklableData α :=
  { _names := st.1
    _vals := st.2
    _dict := none
    next_index := none
    n := none }

end PicklableData

/-- The numpy `uint8` cast applied when assigning an integer into a
`dtype="uint8"` array: the value is reduced modulo 2^8. -/
def uint8_cast (v : Int) : Nat := (v % 256).toNat

/-- The numpy `bool` cast applied when assigning an integer into a
`dtype="bool"` array: any nonzero value becomes `True`. -/
def bool_cast (v : Int) : Bool := v ≠ 0

/-- The value transformation of `VBasis.save_component`: the raw code is
multiplied by `-1` and stored as a `uint8`. -/
def encodeVariableBasis (c : Int) : Nat := uint8_cast (c * -1)

/-- The value transformation of `VBasis.get_component`: the stored `uint8` is
read back as an int and multiplied by `-1`. -/
def decodeVariableBasis (v : Nat) : Int := (v : Int) * -1

/-- The value transformation of `CBasis.save_component` (inherited): the raw
code is stored through the numpy `bool` cast. -/
def encodeConstraintBasis (c : Int) : Bool := bool_cast c

/-- The value transformation of `CBasis.get_component`: `-1 if stored else 0`. -/
def decodeConstraintBasis (b : Bool) : Int := if b then -1 else 0

namespace VBasis

/-- `VBasis.save_component`: stores `val * -1` into the `uint8` array. -/
def save_component (s : PicklableData Nat) (name : String) (val : Int) :
    Except StoreError (PicklableData Nat) :=
  PicklableData.save_component s name (encodeVariableBasis val)

/-- `VBasis.get_component`: `int(super().get_component(component)) * -1`. -/
def get_component (s : PicklableData Nat) (name : String) :
    Except StoreError Int × PicklableData Nat :=
  let (r, s') := PicklableData.get_component s name
  (r.map decodeVariableBasis, s')

end VBasis

namespace CBasis

/-- `CBasis.save_component` (inherited from `PicklableData`, with the numpy
`bool` cast applied on assignment into the `dtype="bool"` array). -/
def save_component (s : PicklableData Bool) (name : String) (val : Int) :
    Except StoreError (PicklableData Bool) :=
  PicklableData.save_component s name (encodeConstraintBasis val)

/-- `CBasis.get_component`: `-1 if super().get_component(component) else 0`. -/
def get_component (s : PicklableData Bool) (name : String) :
    Except StoreError Int × PicklableData Bool :=
  let (r, s') := PicklableData.get_component s name
  (r.map decodeConstraintBasis, s')

end CBasis

/-- Gurobi raw variable basis codes (`GRB.BASIC = 0`, lower = `-1`,
upper = `-2`, superbasic = `-3`). -/
def VB_BASIC : Int := 0

def VB_AT_LOWER : Int := -1

def VB_AT_UPPER : Int := -2

def VB_SUPERBASIC : Int := -3

/-- Gurobi raw constraint basis codes: `0` basic, `-1` nonbasic. -/
def CB_BASIC : Int := 0

def CB_NONBASIC : Int := -1

/-- Embedding of `WarmStartData`, the object pickled to the warm-start file.
`α` is the value type of the variable store (`Nat` for the `uint8` cells of a
`VBasis`, an arbitrary carrier for dtype `float`), `β` of the constraint
store. -/
structure WarmStartData (α β : Type) where
  var_data : PicklableData α
  const_data : PicklableData β
  use_c_v_basis : Bool
  deriving DecidableEq, Repr

/-- Serialized payload of `pickle.dump(WarmStartData(...))`: the `WarmStartData`
attributes, with each `PicklableData` reduced to the pair returned by its
`__getstate__`. -/
structure PickledWarmStart (α β : Type) where
  var_state : List String × List α
  const_state : List String × List β
  use_c_v_basis : Bool
  deriving DecidableEq, Repr

/-- Pickling a `WarmStartData` object: each store contributes its
`__getstate__` pair. -/
def dumpWarmStart (w : WarmStartData α β) : PickledWarmStart α β :=
  ⟨w.var_data.getstate, w.const_data.getstate, w.use_c_v_basis⟩

/-- Unpickling the warm-start file (`pickle.load(f)` inside `_warm_start`):
`__setstate__` is called on each store.  It performs no validation of any
kind, so it succeeds on every structurally well-formed payload; the `Except`
return type records that no error path exists. -/
def loadWarmStart (p : PickledWarmStart α β) : Except StoreError (WarmStartData α β) :=
  .ok ⟨PicklableData.setstate p.var_state, PicklableData.setstate p.const_state,
    p.use_c_v_basis⟩

/-- Outcome of `GurobiAugmented._warm_start`.  `delegated` is the MIP branch
(`if self._solver_model.IsMIP: return super()._warm_start()`), which performs
none of the basis/value restoration below.  `applied` carries, in order, the
`setAttr` calls made on variables and on constraints, and the list of warnings
emitted at the end (each warning identified by the miss count it reports). -/
inductive WSOutcome (γ δ : Type) where
  | delegated
  | failed (e : StoreError)
  | applied (var_attrs : List (String × γ)) (const_attrs : List (String × δ))
      (warnings : List Nat)
  deriving DecidableEq, Repr

/-- One `for ... in map.items()` loop of `_warm_start`: for each component
name, try `get_component`; on `KeyError` use the default and count the miss
(`error` becomes non-`None`, modelled by the `Bool`); then `setAttr` the value
(recorded in order in `attrs`). -/
def applyLoop (get : σ → String → Except StoreError γ × σ) (default : γ) :
    List String → σ → List (String × γ) → Nat → Bool →
      List (String × γ) × σ × Nat × Bool
  | [], s, attrs, cnt, had => (attrs, s, cnt, had)
  | name :: rest, s, attrs, cnt, had =>
    match get s name with
    | (.ok v, s') => applyLoop get default rest s' (attrs ++ [(name, v)]) cnt had
    | (.error _, s') =>
        applyLoop get default rest s' (attrs ++ [(name, default)]) (cnt + 1) true

namespace GurobiAugmented

/-- `CBASIS_DEFAULT = 0`, a basic constraint. -/
def CBASIS_DEFAULT : Int := 0

/-- `VBASIS_DEFAULT = 0`, a basic variable. -/
def VBASIS_DEFAULT : Int := 0

/-- `_warm_start` in the basis branch (`warm_start_data.use_c_v_basis` true, so
the unpickled stores are a `VBasis` and a `CBasis` and the attributes set are
`VBasis`/`CBasis`).  `isMIP` is `self._solver_model.IsMIP`; `read` is the
unpickled content of `self._read_warm_start` (`none` when no input path was
configured, which raises a bare `Exception`); the two name lists are the keys
of `_pyomo_var_to_solver_var_map` and `_pyomo_con_to_solver_con_map` in
iteration order.  The final warning, emitted only when `error is not None`,
reports the total miss count (as "`e` and `error_count - 1` others"). -/
def warm_start_basis (isMIP : Bool) (read : Option (WarmStartData Nat Bool))
    (pyomo_vars pyomo_consts : List String) : WSOutcome Int Int :=
  if isMIP then .delegated
  else
    match read with
    | none => .failed .missingWarmStartInput
    | some wsd =>
      let rv :=
        applyLoop VBasis.get_component VBASIS_DEFAULT pyomo_vars wsd.var_data [] 0 false
      let rc :=
        applyLoop CBasis.get_component CBASIS_DEFAULT pyomo_consts wsd.const_data []
          rv.2.2.1 rv.2.2.2
      .applied rv.1 rc.1 (if rc.2.2.2 then [rc.2.2.1] else [])

/-- `_warm_start` in the primal/dual branch (`use_c_v_basis` false, stores of
dtype `float`, attributes `PStart`/`DStart`, defaults `0`).  Float values are
only stored and retrieved, never computed with, so they are carried by `Rat`. -/
def warm_start_values (isMIP : Bool) (read : Option (WarmStartData Rat Rat))
    (pyomo_vars pyomo_consts : List String) : WSOutcome Rat Rat :=
  if isMIP then .delegated
  else
    match read with
    | none => .failed .missingWarmStartInput
    | some wsd =>
      let rv :=
        applyLoop PicklableData.get_component 0 pyomo_vars wsd.var_data [] 0 false
      let rc :=
        applyLoop PicklableData.get_component 0 pyomo_consts wsd.const_data []
          rv.2.2.1 rv.2.2.2
      .applied rv.1 rc.1 (if rc.2.2.2 then [rc.2.2.1] else [])

/-- `_save_warm_start` with `save_c_v_basis` true: a `VBasis` of size
`n_var` and a `CBasis` of size `n_const` are created and every session
component is saved into them (the association lists are the session maps
paired with the raw `getAttr` values). -/
def save_warm_start_basis (var_vals const_vals : List (String × Int)) :
    Except StoreError (WarmStartData Nat Bool) := do
  let vd ← var_vals.foldlM (fun s p => VBasis.save_component s p.1 p.2)
    (PicklableData.init var_vals.length 0)
  let cd ← const_vals.foldlM (fun s p => CBasis.save_component s p.1 p.2)
    (PicklableData.init const_vals.length false)
  .ok { var_data := vd, const_data := cd, use_c_v_basis := true }

/-- `_save_warm_start` with `save_c_v_basis` false: two plain `PicklableData`
stores of dtype `float` filled with the raw `X` and `Pi` attribute values.
`g` is the unspecified `np.empty` garbage. -/
def save_warm_start_values (g : α) (var_vals const_vals : List (String × α)) :
    Except StoreError (WarmStartData α α) := do
  let vd ← var_vals.foldlM (fun s p => PicklableData.save_component s p.1 p.2)
    (PicklableData.init var_vals.length g)
  let cd ← const_vals.foldlM (fun s p => PicklableData.save_component s p.1 p.2)
    (PicklableData.init const_vals.length g)
  .ok { var_data := vd, const_data := cd, use_c_v_basis := false }

end GurobiAugmented

/-- Folding `save_component` over a list of pairs: the append sequence of a
capture. -/
def appendAll (s : PicklableData α) (l : List (String × α)) :
    Except StoreError (PicklableData α) :=
  l.foldlM (fun s p => PicklableData.save_component s p.1 p.2) s

/-- The value `_warm_start` applies for a name against a lookup dictionary `D`:
the decoded hit, or the default on a miss. -/
def appliedVal (dec : α → γ) (default : γ) (D : List (String × α)) (nm : String) : γ :=
  match PicklableData.pyDictFind D nm with
  | some v => dec v
  | none => default

/-- Number of session names missing from a lookup dictionary. -/
def missCount (D : List (String × α)) (names : List String) : Nat :=
  (names.filter (fun nm => (PicklableData.pyDictFind D nm).isNone)).length

/-- Result of a raw dictionary lookup as `get_component` reports it: the hit,
or `KeyError`. -/
def lookupResult (D : List (String × α)) (nm : String) : Except StoreError α :=
  match PicklableData.pyDictFind D nm with
  | some v => .ok v
  | none => .error (.keyError nm)

namespace PicklableData

theorem foldl_pyDictFind (l : List (String × α)) (k : String) (a : Option α) :
    l.foldl (fun acc p => if p.1 = k then some p.2 else acc) a
      = match pyDictFind l k with
        | some v => some v
        | none => a := by
  induction l generalizing a with
  | nil => simp [pyDictFind]
  | cons p t ih =>
    simp only [pyDictFind, List.foldl_cons]
    rw [ih, ih (if p.1 = k then some p.2 else none)]
    cases h : pyDictFind t k <;> by_cases hp : p.1 = k <;> simp [hp]

theorem pyDictFind_cons (p : String × α) (t : List (String × α)) (k : String) :
    pyDictFind (p :: t) k
      = match pyDictFind t k with
        | some v => some v
        | none => if p.1 = k then some p.2 else none := by
  simp only [pyDictFind, List.foldl_cons]
  exact foldl_pyDictFind t k _

theorem pyDictFind_eq_none_of_not_mem {l : List (String × α)} {k : String}
    (h : k ∉ l.map Prod.fst) : pyDictFind l k = none := by
  induction l with
  | nil => rfl
  | cons p t ih =>
    simp only [List.map_cons, List.mem_cons] at h
    push_neg at h
    rw [pyDictFind_cons, ih h.2]
    simp [h.1.symm]

theorem pyDictFind_isSome_of_mem {l : List (String × α)} {k : String} {v : α}
    (h : (k, v) ∈ l) : (pyDictFind l k).isSome = true := by
  induction l with
  | nil => simp at h
  | cons p t ih =>
    rw [pyDictFind_cons]
    rcases List.mem_cons.mp h with h | h
    · cases h
      cases hfind : pyDictFind t k <;> simp
    · rw [show pyDictFind t k = _ from rfl] at ih ⊢
      cases hfind : pyDictFind t k <;> simp_all

theorem pyDictFind_nodup {l : List (String × α)} {k : String} {v : α}
    (hnd : (l.map Prod.fst).Nodup) (h : (k, v) ∈ l) : pyDictFind l k = some v := by
  induction l with
  | nil => simp at h
  | cons p t ih =>
    simp only [List.map_cons, List.nodup_cons] at hnd
    rw [pyDictFind_cons]
    rcases List.mem_cons.mp h with h | h
    · cases h
      rw [pyDictFind_eq_none_of_not_mem hnd.1]
      simp
    · rw [ih hnd.2 h]

end PicklableData

/-- C7: the basis codecs round-trip on their supported domains: each of the 4
raw variable basis codes survives `decodeVariableBasis ∘ encodeVariableBasis`,
and each of the 2 raw constraint basis codes survives
`decodeConstraintBasis ∘ encodeConstraintBasis`. -/
theorem c7_codec_bijection_on_supported_codes :
    decodeVariableBasis (encodeVariableBasis VB_BASIC) = VB_BASIC ∧
    decodeVariableBasis (encodeVariableBasis VB_AT_LOWER) = VB_AT_LOWER ∧
    decodeVariableBasis (encodeVariableBasis VB_AT_UPPER) = VB_AT_UPPER ∧
    decodeVariableBasis (encodeVariableBasis VB_SUPERBASIC) = VB_SUPERBASIC ∧
    decodeConstraintBasis (encodeConstraintBasis CB_BASIC) = CB_BASIC ∧
    decodeConstraintBasis (encodeConstraintBasis CB_NONBASIC) = CB_NONBASIC := by
  decide

/-- C1 counterexample: with `IsMIP` true, a basis-kind warm start does not
raise `NotSupportedForDiscreteProgram`; it takes the delegation branch
(`return super()._warm_start()`). -/
theorem c1_counterexample :
    GurobiAugmented.warm_start_basis true
        (some ⟨PicklableData.init 1 0, PicklableData.init 1 false, true⟩) ["x"] ["c"]
      = .delegated ∧
    GurobiAugmented.warm_start_basis true
        (some ⟨PicklableData.init 1 0, PicklableData.init 1 false, true⟩) ["x"] ["c"]
      ≠ .failed .notSupportedForDiscreteProgram := by
  decide

/-- C1 amended: a warm start against a discrete program (in either state kind)
raises nothing and applies none of the bundle's attributes: it immediately
delegates to the inherited MIP warm start. -/
theorem c1_amended_mip_delegates (read : Option (WarmStartData Nat Bool))
    (read2 : Option (WarmStartData Rat Rat)) (pv pc : List String) :
    GurobiAugmented.warm_start_basis true read pv pc = .delegated ∧
    GurobiAugmented.warm_start_values true read2 pv pc = .delegated :=
  ⟨rfl, rfl⟩

/-- C2 counterexample: encoding the raw variable basis code `-4`, which is not
one of the 4 known codes, succeeds (storing `4`) instead of failing with
`UnsupportedBasisCode`; likewise the unknown constraint code `5` is silently
stored as `true`. -/
theorem c2_counterexample :
    (VBasis.save_component (PicklableData.init 1 0) "x" (-4)).isOk = true ∧
    VBasis.save_component (PicklableData.init 1 0) "x" (-4)
      ≠ .error .unsupportedBasisCode ∧
    (CBasis.save_component (PicklableData.init 1 false) "c" 5).isOk = true ∧
    CBasis.save_component (PicklableData.init 1 false) "c" 5
      ≠ .error .unsupportedBasisCode := by
  have h1 : VBasis.save_component (PicklableData.init 1 0) "x" (-4)
      = .ok ⟨["x"], [4], none, some 1, some 1⟩ := rfl
  have h2 : CBasis.save_component (PicklableData.init 1 false) "c" 5
      = .ok ⟨["c"], [true], none, some 1, some 1⟩ := rfl
  refine ⟨by rw [h1]; rfl, by rw [h1]; simp, by rw [h2]; rfl, by rw [h2]; simp⟩

/-- C2 amended: encoding never rejects a code.  For any integer codes and any
stores with remaining capacity, `VBasis.save_component` succeeds and stores
`encodeVariableBasis` of the code (the `uint8` cast of its negation), and
`CBasis.save_component` succeeds and stores `encodeConstraintBasis` of the
code (its nonzero-ness); no `UnsupportedBasisCode` error exists. -/
theorem c2_amended (s : PicklableData Nat) (t : PicklableData Bool) (nm nm2 : String)
    (c e : Int) (i j : Nat)
    (hs : s.next_index = some i) (h1 : i < s._names.length) (h2 : i < s._vals.length)
    (ht : t.next_index = some j) (h3 : j < t._names.length) (h4 : j < t._vals.length) :
    VBasis.save_component s nm c
      = .ok { s with _names := s._names.set i nm,
                     _vals := s._vals.set i (encodeVariableBasis c),
                     next_index := some (i + 1) } ∧
    CBasis.save_component t nm2 e
      = .ok { t with _names := t._names.set j nm2,
                     _vals := t._vals.set j (encodeConstraintBasis e),
                     next_index := some (j + 1) } := by
  constructor <;>
    simp [VBasis.save_component, CBasis.save_component,
      PicklableData.save_component, hs, ht, h1, h2, h3, h4]

/-- C2 amended, witness at the unknown codes `-4` and `5` on fresh stores of
capacity 1. -/
theorem c2_amended_witness :
    VBasis.save_component (PicklableData.init 1 0) "x" (-4)
      = .ok { PicklableData.init 1 0 with
              _names := (PicklableData.init (α := Nat) 1 0)._names.set 0 "x",
              _vals := (PicklableData.init (α := Nat) 1 0)._vals.set 0
                (encodeVariableBasis (-4)),
              next_index := some 1 } ∧
    CBasis.save_component (PicklableData.init 1 false) "c" 5
      = .ok { PicklableData.init 1 false with
              _names := (PicklableData.init (α := Bool) 1 false)._names.set 0 "c",
              _vals := (PicklableData.init (α := Bool) 1 false)._vals.set 0
                (encodeConstraintBasis 5),
              next_index := some 1 } :=
  c2_amended (PicklableData.init 1 0) (PicklableData.init 1 false) "x" "c" (-4) 5 0 0
    rfl (by decide) (by decide) rfl (by decide) (by decide)

/-- C5 counterexample: unpickling a payload whose variable names and values
arrays have inconsistent lengths (2 names, 1 value) succeeds; `load` performs
no validation and never raises `CorruptBundle`. -/
theorem c5_counterexample :
    (loadWarmStart
        (⟨(["a", "b"], [(1 : Int)]), ([], ([] : List Int)), false⟩ :
          PickledWarmStart Int Int)).isOk = true ∧
    loadWarmStart
        (⟨(["a", "b"], [(1 : Int)]), ([], ([] : List Int)), false⟩ :
          PickledWarmStart Int Int)
      ≠ .error .corruptBundle := by
  exact ⟨rfl, by simp [loadWarmStart]⟩

/-- C5 amended: persistence uses Python pickling of the `WarmStartData` object
graph — each store reduces to its `(names, values)` arrays via `__getstate__`,
alongside the `use_c_v_basis` flag — not an explicit versioned wire format; and
`load` performs no consistency validation at all: every structurally
well-formed payload, including one with inconsistent field lengths, is
accepted without error. -/
theorem c5_amended (α β : Type) :
    (∀ w : WarmStartData α β,
      dumpWarmStart w
        = ⟨(w.var_data._names, w.var_data._vals),
           (w.const_data._names, w.const_data._vals), w.use_c_v_basis⟩) ∧
    (∀ (vn : List String) (vv : List α) (cn : List String) (cv : List β) (flag : Bool),
      loadWarmStart (⟨(vn, vv), (cn, cv), flag⟩ : PickledWarmStart α β)
        = .ok ⟨PicklableData.setstate (vn, vv), PicklableData.setstate (cn, cv), flag⟩) :=
  ⟨fun _ => rfl, fun _ _ _ _ _ => rfl⟩

theorem set_append_len (A t : List α) (x : α) (m : Nat) (hm : m = A.length) :
    (A ++ t).set m x = A ++ t.set 0 x := by
  subst hm
  induction A with
  | nil => simp
  | cons a A ih => simp [ih]

theorem appendAll_cons (s : PicklableData α) (p : String × α) (rest : List (String × α)) :
    appendAll s (p :: rest)
      = PicklableData.save_component s p.1 p.2 >>= fun s' => appendAll s' rest := by
  rfl

theorem appendAll_ok (g : α) :
    ∀ (l : List (String × α)) (A : List String) (B : List α) (ka kb : Nat)
      (d : Option (List (String × α))) (no : Option Nat),
      A.length = B.length → l.length ≤ ka → l.length ≤ kb →
      appendAll ⟨A ++ List.replicate ka "", B ++ List.replicate kb g, d, some A.length, no⟩ l
        = .ok ⟨A ++ l.map Prod.fst ++ List.replicate (ka - l.length) "",
               B ++ l.map Prod.snd ++ List.replicate (kb - l.length) g,
               d, some (A.length + l.length), no⟩ := by
  intro l
  induction l with
  | nil =>
    intro A B ka kb d no hAB h1 h2
    simp only [appendAll, List.foldlM_nil, List.map_nil, List.append_nil,
      List.length_nil, Nat.sub_zero, Nat.add_zero]
    rfl
  | cons p rest ih =>
    intro A B ka kb d no hAB h1 h2
    match ka, kb with
    | ka + 1, kb + 1 =>
      simp only [List.length_cons] at h1 h2
      have hka : rest.length ≤ ka := by omega
      have hkb : rest.length ≤ kb := by omega
      have hlt1 : A.length < (A ++ List.replicate (ka + 1) "").length := by
        simp
      have hlt2 : A.length < (B ++ List.replicate (kb + 1) g).length := by
        simp [← hAB]
      have hstep : PicklableData.save_component
          (⟨A ++ List.replicate (ka + 1) "", B ++ List.replicate (kb + 1) g, d,
            some A.length, no⟩ : PicklableData α) p.1 p.2
          = .ok ⟨(A ++ [p.1]) ++ List.replicate ka "", (B ++ [p.2]) ++ List.replicate kb g,
                 d, some (A ++ [p.1]).length, no⟩ := by
        simp only [PicklableData.save_component]
        rw [if_pos hlt1, if_pos hlt2]
        rw [set_append_len A _ p.1 A.length rfl, set_append_len B _ p.2 A.length hAB]
        simp [List.replicate_succ]
      rw [appendAll_cons, hstep]
      rw [show ((Except.ok (⟨(A ++ [p.1]) ++ List.replicate ka "",
            (B ++ [p.2]) ++ List.replicate kb g, d, some (A ++ [p.1]).length, no⟩ :
            PicklableData α) : Except StoreError (PicklableData α)) >>=
            fun s' => appendAll s' rest)
          = appendAll ⟨(A ++ [p.1]) ++ List.replicate ka "",
              (B ++ [p.2]) ++ List.replicate kb g, d,
              some (A ++ [p.1]).length, no⟩ rest from rfl]
      rw [ih (A ++ [p.1]) (B ++ [p.2]) ka kb d no (by simp [hAB]) hka hkb]
      simp only [List.append_assoc, List.singleton_append, List.map_cons,
        List.length_append, List.length_singleton, List.length_cons, List.length_nil,
        List.nil_append, Nat.succ_sub_succ, List.cons_append, Except.ok.injEq,
        PicklableData.mk.injEq, Option.some.injEq]
      exact ⟨trivial, trivial, trivial, by omega, trivial⟩

theorem appendAll_init (g : α) (l : List (String × α)) :
    appendAll (PicklableData.init l.length g) l
      = .ok ⟨l.map Prod.fst, l.map Prod.snd, none, some l.length, some l.length⟩ := by
  have h := appendAll_ok g l [] [] l.length l.length none (some l.length) rfl
    le_rfl le_rfl
  simpa [PicklableData.init] using h

theorem get_component_snd (s : PicklableData α) (nm : String) :
    (PicklableData.get_component s nm).2 = { s with _dict := some s.storeDict } := by
  unfold PicklableData.get_component
  cases h : PicklableData.pyDictFind s.storeDict nm <;> simp [h]

theorem get_component_fst (s : PicklableData α) (nm : String) :
    (PicklableData.get_component s nm).1 = lookupResult s.storeDict nm := by
  unfold PicklableData.get_component lookupResult
  cases h : PicklableData.pyDictFind s.storeDict nm <;> simp [h]

theorem update_dict_self (s : PicklableData α) (d : List (String × α))
    (h : s._dict = some d) : ({ s with _dict := some d } : PicklableData α) = s := by
  cases s
  simp_all

/-- C4 counterexample: the store is preallocated with a fixed capacity, not
growable.  Appending a 2nd entry to a store of capacity 1 overflows with
`IndexError`; and a store of capacity 2 holding only 1 appended entry builds a
lookup dictionary containing a phantom entry under the empty name (with the
uninitialised `np.empty` garbage, here `0`, as its value). -/
theorem c4_counterexample :
    appendAll (PicklableData.init 1 (0 : Int)) [("a", 1), ("b", 2)]
      = .error .indexError ∧
    appendAll (PicklableData.init 2 (0 : Int)) [("a", 1)]
      = .ok ⟨["a", ""], [1, 0], none, some 1, some 2⟩ ∧
    PicklableData.pyDictFind
      (PicklableData.storeDict
        (⟨["a", ""], [1, 0], none, some 1, some 2⟩ : PicklableData Int)) ""
      = some 0 := by
  refine ⟨rfl, rfl, by decide⟩

/-- C4 amended: the store has the fixed preallocated capacity chosen at
construction: an append once `next_index` has reached the end of the arrays
fails with `IndexError` (overflow is possible), and any under-filled store
(one whose names array still contains an empty-name slot) builds a lookup
dictionary that does contain an entry for the empty name. -/
theorem c4_amended (s : PicklableData α) (nm : String) (v : α) (i : Nat)
    (hnext : s.next_index = some i) (hfull : s._names.length ≤ i)
    (t : PicklableData β) (ht : t._dict = none) (hmem : "" ∈ t._names)
    (hlen : t._names.length ≤ t._vals.length) :
    PicklableData.save_component s nm v = .error .indexError ∧
    (PicklableData.pyDictFind t.storeDict "").isSome = true := by
  constructor
  · simp [PicklableData.save_component, hnext, Nat.not_lt.mpr hfull]
  · rcases List.mem_iff_getElem.mp hmem with ⟨j, hj, hje⟩
    have hjv : j < t._vals.length := lt_of_lt_of_le hj hlen
    have hz : j < (t._names.zip t._vals).length := by
      rw [List.length_zip]
      omega
    have hget : (t._names.zip t._vals)[j] = (t._names[j], t._vals[j]) :=
      List.getElem_zip
    have hmem2 : ("", t._vals[j]) ∈ t._names.zip t._vals := by
      rw [← hje, ← hget]
      exact List.getElem_mem hz
    have := PicklableData.pyDictFind_isSome_of_mem hmem2
    simpa [PicklableData.storeDict, PicklableData._get_dict, ht]

/-- C4 amended, witness: a full store of capacity 1 overflows; the under-filled
capacity-2 store of the counterexample exposes the empty-name phantom entry. -/
theorem c4_amended_witness :
    PicklableData.save_component
        (⟨["a"], [(1 : Int)], none, some 1, some 1⟩ : PicklableData Int) "b" 2
      = .error .indexError ∧
    (PicklableData.pyDictFind
      (PicklableData.storeDict
        (⟨["a", ""], [(1 : Int), 0], none, some 1, some 2⟩ : PicklableData Int)) "").isSome
      = true :=
  c4_amended (⟨["a"], [(1 : Int)], none, some 1, some 1⟩ : PicklableData Int) "b" 2 1
    rfl (by decide) (⟨["a", ""], [(1 : Int), 0], none, some 1, some 2⟩ : PicklableData Int)
    rfl (by decide) (by decide)

/-- C3 counterexample: on a store whose first lookup (`get_component "a"`) has
already occurred — freezing its `_dict` — a subsequent append succeeds; it does
not fail with `AlreadyFrozen`. -/
theorem c3_counterexample :
    (PicklableData.save_component
      ((PicklableData.get_component
        (⟨["a", ""], [(1 : Int), 0], none, some 1, some 2⟩ : PicklableData Int) "a").2)
      "b" 2).isOk = true ∧
    PicklableData.save_component
      ((PicklableData.get_component
        (⟨["a", ""], [(1 : Int), 0], none, some 1, some 2⟩ : PicklableData Int) "a").2)
      "b" 2 ≠ .error .alreadyFrozen := by
  have h : PicklableData.save_component
      ((PicklableData.get_component
        (⟨["a", ""], [(1 : Int), 0], none, some 1, some 2⟩ : PicklableData Int) "a").2)
      "b" 2
      = .ok ⟨["a", "b"], [1, 2], some [("a", 1), ("", 0)], some 2, some 2⟩ := rfl
  exact ⟨by rw [h]; rfl, by rw [h]; simp⟩

/-- C3 amended: no freezing occurs.  After any lookup, an append on a store
with remaining capacity succeeds (there is no `AlreadyFrozen` failure); the
already-cached `_dict` is carried over unchanged, so the new entry is not
reflected in it. -/
theorem c3_amended (s : PicklableData α) (nm0 nm1 : String) (v : α) (i : Nat)
    (hnext : s.next_index = some i) (h1 : i < s._names.length) (h2 : i < s._vals.length) :
    ∃ s2, PicklableData.save_component ((PicklableData.get_component s nm0).2) nm1 v
        = .ok s2 ∧
      s2._dict = some s.storeDict := by
  rw [get_component_snd]
  have h : PicklableData.save_component ({ s with _dict := some s.storeDict }) nm1 v
      = .ok { s with _dict := some s.storeDict,
                     _names := s._names.set i nm1,
                     _vals := s._vals.set i v,
                     next_index := some (i + 1) } := by
    simp [PicklableData.save_component, hnext, h1, h2]
  exact ⟨_, h, rfl⟩

/-- C3 amended, witness on the frozen capacity-2 store holding one entry. -/
theorem c3_amended_witness :
    ∃ s2, PicklableData.save_component
        ((PicklableData.get_component
          (⟨["a", ""], [(1 : Int), 0], none, some 1, some 2⟩ : PicklableData Int) "a").2)
        "b" 2
      = .ok s2 ∧
      s2._dict = some (PicklableData.storeDict
        (⟨["a", ""], [(1 : Int), 0], none, some 1, some 2⟩ : PicklableData Int)) :=
  c3_amended (⟨["a", ""], [(1 : Int), 0], none, some 1, some 2⟩ : PicklableData Int)
    "a" "b" 2 1 rfl (by decide) (by decide)

/-- C9: the lookup dictionary is built at most once.  On a store whose `_dict`
is not yet built, the first lookup caches the dictionary of the entries present
at that moment; a subsequent append with remaining capacity succeeds, yet every
later lookup leaves the store unchanged (the dictionary is never rebuilt) and
answers from exactly the frozen dictionary, so the appended name still raises
`KeyError`. -/
theorem c9_index_built_once (s : PicklableData α) (nm0 nm1 : String) (v : α) (i : Nat)
    (hd : s._dict = none)
    (hnext : s.next_index = some i) (h1 : i < s._names.length) (h2 : i < s._vals.length)
    (hfresh : PicklableData.pyDictFind s._get_dict nm1 = none) :
    (PicklableData.get_component s nm0).2._dict = some s._get_dict ∧
    ∃ s2, PicklableData.save_component ((PicklableData.get_component s nm0).2) nm1 v
        = .ok s2 ∧
      (∀ nm, (PicklableData.get_component s2 nm).2 = s2) ∧
      (∀ nm, (PicklableData.get_component s2 nm).1 = lookupResult s._get_dict nm) ∧
      (PicklableData.get_component s2 nm1).1 = .error (.keyError nm1) := by
  have hsd : s.storeDict = s._get_dict := by
    simp [PicklableData.storeDict, hd]
  constructor
  · rw [get_component_snd]
    simp [hsd]
  · rw [get_component_snd]
    have hsave : PicklableData.save_component ({ s with _dict := some s.storeDict }) nm1 v
        = .ok { s with _dict := some s.storeDict,
                       _names := s._names.set i nm1,
                       _vals := s._vals.set i v,
                       next_index := some (i + 1) } := by
      simp [PicklableData.save_component, hnext, h1, h2]
    refine ⟨_, hsave, ?_, ?_, ?_⟩
    · intro nm
      rw [get_component_snd]
      exact update_dict_self _ _ rfl
    · intro nm
      rw [get_component_fst]
      simp only [PicklableData.storeDict, hd]
    · rw [get_component_fst]
      simp only [PicklableData.storeDict, hd, lookupResult, hfresh]

/-- C9 witness: a frozen capacity-2 store with one real entry accepts the
append of `"b"` yet keeps serving (only) the frozen entries. -/
theorem c9_index_built_once_witness :
    (PicklableData.get_component
      (⟨["a", ""], [(1 : Int), 0], none, some 1, some 2⟩ : PicklableData Int) "a").2._dict
      = some (PicklableData._get_dict
          (⟨["a", ""], [(1 : Int), 0], none, some 1, some 2⟩ : PicklableData Int)) ∧
    ∃ s2, PicklableData.save_component
        ((PicklableData.get_component
          (⟨["a", ""], [(1 : Int), 0], none, some 1, some 2⟩ : PicklableData Int) "a").2)
        "b" 2
      = .ok s2 ∧
      (∀ nm, (PicklableData.get_component s2 nm).2 = s2) ∧
      (∀ nm, (PicklableData.get_component s2 nm).1
        = lookupResult
            (PicklableData._get_dict
              (⟨["a", ""], [(1 : Int), 0], none, some 1, some 2⟩ : PicklableData Int)) nm) ∧
      (PicklableData.get_component s2 "b").1 = .error (.keyError "b") := by
  exact c9_index_built_once
    (⟨["a", ""], [(1 : Int), 0], none, some 1, some 2⟩ : PicklableData Int)
    "a" "b" 2 1 rfl rfl (by decide) (by decide) (by decide)

/-- C10: the variable basis codec is arithmetic, not an enumeration map: for
every integer code in `[-255, 0]` — not only the 4 enumerated codes — the
decode of the encode returns the code exactly, and `VBasis.save_component`
accepts the code without error whenever capacity remains. -/
theorem c10_arithmetic_codec (c : Int) (h1 : -255 ≤ c) (h2 : c ≤ 0)
    (s : PicklableData Nat) (nm : String) (i : Nat)
    (hs : s.next_index = some i) (ha : i < s._names.length) (hb : i < s._vals.length) :
    decodeVariableBasis (encodeVariableBasis c) = c ∧
    (VBasis.save_component s nm c).isOk = true := by
  constructor
  · simp only [decodeVariableBasis, encodeVariableBasis, uint8_cast]
    omega
  · simp only [VBasis.save_component, PicklableData.save_component, hs, ha, hb,
      if_pos]
    rfl

/-- C10 witness at the code `-7`, which is outside the 4 enumerated codes. -/
theorem c10_arithmetic_codec_witness :
    decodeVariableBasis (encodeVariableBasis (-7)) = -7 ∧
    (VBasis.save_component (PicklableData.init 1 0) "x" (-7)).isOk = true :=
  c10_arithmetic_codec (-7) (by decide) (by decide)
    (PicklableData.init 1 0) "x" 0 rfl (by decide) (by decide)

theorem applyLoop_spec {σ γ α : Type} (get : σ → String → Except StoreError γ × σ)
    (sd : σ → List (String × α)) (dec : α → γ) (default : γ)
    (hfst : ∀ s nm, (get s nm).1 = (lookupResult (sd s) nm).map dec)
    (hsd : ∀ s nm, sd (get s nm).2 = sd s) :
    ∀ (names : List String) (s : σ) (attrs : List (String × γ)) (cnt : Nat) (had : Bool),
      (applyLoop get default names s attrs cnt had).1
          = attrs ++ names.map (fun nm => (nm, appliedVal dec default (sd s) nm)) ∧
      (applyLoop get default names s attrs cnt had).2.2.1
          = cnt + missCount (sd s) names ∧
      (applyLoop get default names s attrs cnt had).2.2.2
          = (had || names.any (fun nm => (PicklableData.pyDictFind (sd s) nm).isNone)) := by
  intro names
  induction names with
  | nil =>
    intro s attrs cnt had
    simp [applyLoop, missCount]
  | cons nm rest ih =>
    intro s attrs cnt had
    simp only [applyLoop]
    cases hg : get s nm with
    | mk r s' =>
      have hr0 := hfst s nm
      rw [hg] at hr0
      have hr : r = Except.map dec (lookupResult (sd s) nm) := hr0
      have hs' : sd s' = sd s := by
        have h := hsd s nm
        rw [hg] at h
        exact h
      cases hfind : PicklableData.pyDictFind (sd s) nm with
      | some v =>
        have hrr : r = .ok (dec v) := by
          rw [hr]
          simp [lookupResult, hfind, Except.map]
        subst hrr
        obtain ⟨ih1, ih2, ih3⟩ := ih s' (attrs ++ [(nm, dec v)]) cnt had
        rw [hs'] at ih1 ih2 ih3
        refine ⟨?_, ?_, ?_⟩
        · rw [ih1]
          simp [appliedVal, hfind]
        · rw [ih2]
          simp [missCount, hfind]
        · rw [ih3]
          simp [hfind]
      | none =>
        have hrr : r = .error (.keyError nm) := by
          rw [hr]
          simp [lookupResult, hfind, Except.map]
        subst hrr
        obtain ⟨ih1, ih2, ih3⟩ := ih s' (attrs ++ [(nm, default)]) (cnt + 1) true
        rw [hs'] at ih1 ih2 ih3
        refine ⟨?_, ?_, ?_⟩
        · rw [ih1]
          simp [appliedVal, hfind]
        · rw [ih2]
          simp [missCount, hfind]
          omega
        · rw [ih3]
          simp [hfind]

theorem plain_get_fst (s : PicklableData α) (nm : String) :
    (PicklableData.get_component s nm).1
      = (lookupResult (PicklableData.storeDict s) nm).map id := by
  rw [get_component_fst]
  cases h : lookupResult s.storeDict nm <;> simp [Except.map]

theorem plain_get_sd (s : PicklableData α) (nm : String) :
    PicklableData.storeDict ((PicklableData.get_component s nm).2)
      = PicklableData.storeDict s := by
  rw [get_component_snd]
  rfl

theorem vbasis_get_fst (s : PicklableData Nat) (nm : String) :
    (VBasis.get_component s nm).1
      = (lookupResult (PicklableData.storeDict s) nm).map decodeVariableBasis := by
  have h0 := get_component_fst s nm
  cases hg : PicklableData.get_component s nm with
  | mk r s' =>
    rw [hg] at h0
    have h : r = lookupResult s.storeDict nm := h0
    simp [VBasis.get_component, hg, h]

theorem vbasis_get_sd (s : PicklableData Nat) (nm : String) :
    PicklableData.storeDict ((VBasis.get_component s nm).2)
      = PicklableData.storeDict s := by
  have h0 := get_component_snd s nm
  cases hg : PicklableData.get_component s nm with
  | mk r s' =>
    rw [hg] at h0
    have h : s' = { s with _dict := some s.storeDict } := h0
    simp [VBasis.get_component, hg, h, PicklableData.storeDict]

theorem cbasis_get_fst (s : PicklableData Bool) (nm : String) :
    (CBasis.get_component s nm).1
      = (lookupResult (PicklableData.storeDict s) nm).map decodeConstraintBasis := by
  have h0 := get_component_fst s nm
  cases hg : PicklableData.get_component s nm with
  | mk r s' =>
    rw [hg] at h0
    have h : r = lookupResult s.storeDict nm := h0
    simp [CBasis.get_component, hg, h]

theorem cbasis_get_sd (s : PicklableData Bool) (nm : String) :
    PicklableData.storeDict ((CBasis.get_component s nm).2)
      = PicklableData.storeDict s := by
  have h0 := get_component_snd s nm
  cases hg : PicklableData.get_component s nm with
  | mk r s' =>
    rw [hg] at h0
    have h : s' = { s with _dict := some s.storeDict } := h0
    simp [CBasis.get_component, hg, h, PicklableData.storeDict]

theorem any_isNone_iff (D : List (String × α)) :
    ∀ names : List String,
      ((names.any fun nm => (PicklableData.pyDictFind D nm).isNone) = true
        ↔ missCount D names ≠ 0) := by
  intro names
  induction names with
  | nil => simp [missCount]
  | cons nm rest ih =>
    by_cases h : (PicklableData.pyDictFind D nm).isNone = true
    · simp [missCount, List.filter_cons, h]
    · simp only [List.any_cons, Bool.or_eq_true, ih, missCount, List.filter_cons]
      simp [h]

theorem warn_list_eq (a b : List String) (D1 : List (String × α)) (D2 : List (String × β)) :
    (if (a.any (fun nm => (PicklableData.pyDictFind D1 nm).isNone)
        || b.any (fun nm => (PicklableData.pyDictFind D2 nm).isNone))
     then [missCount D1 a + missCount D2 b] else [])
      = (if missCount D1 a + missCount D2 b = 0 then []
         else [missCount D1 a + missCount D2 b]) := by
  by_cases hm : missCount D1 a + missCount D2 b = 0
  · have ha : missCount D1 a = 0 := by omega
    have hb : missCount D2 b = 0 := by omega
    have h1 : (a.any fun nm => (PicklableData.pyDictFind D1 nm).isNone) = false := by
      rw [← Bool.not_eq_true]
      rw [any_isNone_iff]
      omega
    have h2 : (b.any fun nm => (PicklableData.pyDictFind D2 nm).isNone) = false := by
      rw [← Bool.not_eq_true]
      rw [any_isNone_iff]
      omega
    simp [h1, h2, hm]
  · rcases Nat.eq_zero_or_pos (missCount D1 a) with ha | ha
    · have hb : missCount D2 b ≠ 0 := by omega
      have h2 : (b.any fun nm => (PicklableData.pyDictFind D2 nm).isNone) = true :=
        (any_isNone_iff D2 b).mpr hb
      simp [h2, hm]
    · have h1 : (a.any fun nm => (PicklableData.pyDictFind D1 nm).isNone) = true :=
        (any_isNone_iff D1 a).mpr (by omega)
      simp [h1, hm]

/-- C6: restoring on a continuous program never fails because of misses.  In
both state kinds, every session name receives exactly one `setAttr`: the
decoded stored value on a hit, the defined default on a miss (`0`, i.e. basic,
for the basis kind; `0.0` for the value kind).  After all names are processed
the warning list is empty when the total miss count is zero and otherwise
consists of exactly one aggregated warning reporting that count. -/
theorem c6_miss_defaults_single_warning (vars consts : List String)
    (d : WarmStartData Nat Bool) (d2 : WarmStartData Rat Rat) :
    (GurobiAugmented.warm_start_basis false (some d) vars consts
      = .applied
          (vars.map fun nm =>
            (nm, appliedVal decodeVariableBasis GurobiAugmented.VBASIS_DEFAULT
              d.var_data.storeDict nm))
          (consts.map fun nm =>
            (nm, appliedVal decodeConstraintBasis GurobiAugmented.CBASIS_DEFAULT
              d.const_data.storeDict nm))
          (if missCount d.var_data.storeDict vars
              + missCount d.const_data.storeDict consts = 0
           then []
           else [missCount d.var_data.storeDict vars
              + missCount d.const_data.storeDict consts])) ∧
    (GurobiAugmented.warm_start_values false (some d2) vars consts
      = .applied
          (vars.map fun nm => (nm, appliedVal id 0 d2.var_data.storeDict nm))
          (consts.map fun nm => (nm, appliedVal id 0 d2.const_data.storeDict nm))
          (if missCount d2.var_data.storeDict vars
              + missCount d2.const_data.storeDict consts = 0
           then []
           else [missCount d2.var_data.storeDict vars
              + missCount d2.const_data.storeDict consts])) := by
  constructor
  · obtain ⟨hc1, hc2, hc3⟩ := applyLoop_spec CBasis.get_component
      PicklableData.storeDict decodeConstraintBasis GurobiAugmented.CBASIS_DEFAULT
      cbasis_get_fst cbasis_get_sd consts d.const_data []
      ((applyLoop VBasis.get_component GurobiAugmented.VBASIS_DEFAULT vars
        d.var_data [] 0 false).2.2.1)
      ((applyLoop VBasis.get_component GurobiAugmented.VBASIS_DEFAULT vars
        d.var_data [] 0 false).2.2.2)
    obtain ⟨hv1, hv2, hv3⟩ := applyLoop_spec VBasis.get_component
      PicklableData.storeDict decodeVariableBasis GurobiAugmented.VBASIS_DEFAULT
      vbasis_get_fst vbasis_get_sd vars d.var_data [] 0 false
    simp only [GurobiAugmented.warm_start_basis]
    rw [hc1, hc2, hc3, hv1, hv2, hv3]
    simp only [List.nil_append, Nat.zero_add, Bool.false_or]
    rw [warn_list_eq]
    rfl
  · obtain ⟨hc1, hc2, hc3⟩ := applyLoop_spec PicklableData.get_component
      PicklableData.storeDict id (0 : Rat)
      plain_get_fst plain_get_sd consts d2.const_data []
      ((applyLoop PicklableData.get_component (0 : Rat) vars
        d2.var_data [] 0 false).2.2.1)
      ((applyLoop PicklableData.get_component (0 : Rat) vars
        d2.var_data [] 0 false).2.2.2)
    obtain ⟨hv1, hv2, hv3⟩ := applyLoop_spec PicklableData.get_component
      PicklableData.storeDict id (0 : Rat)
      plain_get_fst plain_get_sd vars d2.var_data [] 0 false
    simp only [GurobiAugmented.warm_start_values]
    rw [hc1, hc2, hc3, hv1, hv2, hv3]
    simp only [List.nil_append, Nat.zero_add, Bool.false_or]
    rw [warn_list_eq]
    rfl

theorem vbasis_foldlM_eq (l : List (String × Int)) (s : PicklableData Nat) :
    l.foldlM (fun s p => VBasis.save_component s p.1 p.2) s
      = appendAll s (l.map fun p => (p.1, encodeVariableBasis p.2)) := by
  induction l generalizing s with
  | nil => rfl
  | cons p rest ih =>
    simp only [List.foldlM_cons, List.map_cons, appendAll_cons, VBasis.save_component]
    congr 1
    funext s'
    exact ih s'

theorem cbasis_foldlM_eq (l : List (String × Int)) (s : PicklableData Bool) :
    l.foldlM (fun s p => CBasis.save_component s p.1 p.2) s
      = appendAll s (l.map fun p => (p.1, encodeConstraintBasis p.2)) := by
  induction l generalizing s with
  | nil => rfl
  | cons p rest ih =>
    simp only [List.foldlM_cons, List.map_cons, appendAll_cons, CBasis.save_component]
    congr 1
    funext s'
    exact ih s'

theorem setstate_storeDict (l : List (String × α)) :
    (PicklableData.setstate (l.map Prod.fst, l.map Prod.snd) : PicklableData α).storeDict
      = l := by
  simp only [PicklableData.setstate, PicklableData.storeDict, PicklableData._get_dict]
  rw [List.zip_map']
  simp

theorem roundtrip_lookup (l : List (String × α)) (hnd : (l.map Prod.fst).Nodup)
    (nm : String) (v : α) (hmem : (nm, v) ∈ l) :
    (PicklableData.get_component
      (PicklableData.setstate (l.map Prod.fst, l.map Prod.snd)) nm).1 = .ok v := by
  rw [get_component_fst, setstate_storeDict]
  simp [lookupResult, PicklableData.pyDictFind_nodup hnd hmem]

theorem decode_encode_of_dom (c : Int) (h1 : -255 ≤ c) (h2 : c ≤ 0) :
    decodeVariableBasis (encodeVariableBasis c) = c := by
  simp only [decodeVariableBasis, encodeVariableBasis, uint8_cast]
  omega

theorem cdecode_encode_of_dom (c : Int) (h : c = CB_BASIC ∨ c = CB_NONBASIC) :
    decodeConstraintBasis (encodeConstraintBasis c) = c := by
  rcases h with h | h <;> subst h <;> decide

theorem vget_of_plain (s : PicklableData Nat) (nm : String) (v : Nat)
    (h : (PicklableData.get_component s nm).1 = .ok v) :
    (VBasis.get_component s nm).1 = .ok (decodeVariableBasis v) := by
  cases hg : PicklableData.get_component s nm with
  | mk r s' =>
    rw [hg] at h
    have h' : r = .ok v := h
    simp [VBasis.get_component, hg, h', Except.map]

theorem cget_of_plain (s : PicklableData Bool) (nm : String) (v : Bool)
    (h : (PicklableData.get_component s nm).1 = .ok v) :
    (CBasis.get_component s nm).1 = .ok (decodeConstraintBasis v) := by
  cases hg : PicklableData.get_component s nm with
  | mk r s' =>
    rw [hg] at h
    have h' : r = .ok v := h
    simp [CBasis.get_component, hg, h', Except.map]

theorem map_fst_of_enc (f : Int → β) (l : List (String × Int)) :
    ((l.map fun p => (p.1, f p.2)).map Prod.fst) = l.map Prod.fst := by
  rw [List.map_map]
  rfl

/-- C8: persistence round-trips exactly.  For appended (name, value) sequences
with distinct names, looking every appended name up after pickling
(`__getstate__`) and unpickling (`__setstate__`) the captured `WarmStartData`
returns exactly the appended value: identically for primal/dual float values,
and code-exact through the codecs for basis values in the supported raw code
ranges. -/
theorem c8_persist_roundtrip
    (fv fc : List (String × Rat)) (bv bc : List (String × Int)) (g : Rat)
    (hfv : (fv.map Prod.fst).Nodup) (hfc : (fc.map Prod.fst).Nodup)
    (hbv : (bv.map Prod.fst).Nodup) (hbc : (bc.map Prod.fst).Nodup)
    (hbvdom : ∀ p ∈ bv, -3 ≤ p.2 ∧ p.2 ≤ 0)
    (hbcdom : ∀ p ∈ bc, p.2 = CB_BASIC ∨ p.2 = CB_NONBASIC) :
    (∃ w, GurobiAugmented.save_warm_start_values g fv fc = .ok w ∧
      ∃ w2, loadWarmStart (dumpWarmStart w) = .ok w2 ∧
        (∀ p ∈ fv, (PicklableData.get_component w2.var_data p.1).1 = .ok p.2) ∧
        (∀ p ∈ fc, (PicklableData.get_component w2.const_data p.1).1 = .ok p.2)) ∧
    (∃ w, GurobiAugmented.save_warm_start_basis bv bc = .ok w ∧
      ∃ w2, loadWarmStart (dumpWarmStart w) = .ok w2 ∧
        (∀ p ∈ bv, (VBasis.get_component w2.var_data p.1).1 = .ok p.2) ∧
        (∀ p ∈ bc, (CBasis.get_component w2.const_data p.1).1 = .ok p.2)) := by
  constructor
  · have hv := appendAll_init g fv
    have hc := appendAll_init g fc
    have h1 : GurobiAugmented.save_warm_start_values g fv fc
        = .ok ⟨⟨fv.map Prod.fst, fv.map Prod.snd, none, some fv.length, some fv.length⟩,
               ⟨fc.map Prod.fst, fc.map Prod.snd, none, some fc.length, some fc.length⟩,
               false⟩ := by
      simp only [appendAll] at hv hc
      simp only [GurobiAugmented.save_warm_start_values, hv, hc]
      rfl
    refine ⟨_, h1, _, rfl, ?_, ?_⟩
    · intro p hp
      exact roundtrip_lookup fv hfv p.1 p.2 (by simpa using hp)
    · intro p hp
      exact roundtrip_lookup fc hfc p.1 p.2 (by simpa using hp)
  · have e1 : (bv.map fun q => (q.1, encodeVariableBasis q.2)).length = bv.length := by
      simp
    have e2 : (bc.map fun q => (q.1, encodeConstraintBasis q.2)).length = bc.length := by
      simp
    have hv0 := appendAll_init (0 : Nat) (bv.map fun q => (q.1, encodeVariableBasis q.2))
    have hc0 := appendAll_init false (bc.map fun q => (q.1, encodeConstraintBasis q.2))
    rw [e1] at hv0
    rw [e2] at hc0
    have h1 : GurobiAugmented.save_warm_start_basis bv bc
        = .ok ⟨⟨(bv.map fun q => (q.1, encodeVariableBasis q.2)).map Prod.fst,
                (bv.map fun q => (q.1, encodeVariableBasis q.2)).map Prod.snd,
                none, some bv.length, some bv.length⟩,
               ⟨(bc.map fun q => (q.1, encodeConstraintBasis q.2)).map Prod.fst,
                (bc.map fun q => (q.1, encodeConstraintBasis q.2)).map Prod.snd,
                none, some bc.length, some bc.length⟩,
               true⟩ := by
      simp only [GurobiAugmented.save_warm_start_basis, vbasis_foldlM_eq, cbasis_foldlM_eq]
      simp only [hv0, hc0]
      rfl
    refine ⟨_, h1, _, rfl, ?_, ?_⟩
    · intro p hp
      have hmem2 : (p.1, encodeVariableBasis p.2)
          ∈ (bv.map fun q => (q.1, encodeVariableBasis q.2)) :=
        List.mem_map.mpr ⟨p, hp, rfl⟩
      have hnd2 : ((bv.map fun q => (q.1, encodeVariableBasis q.2)).map Prod.fst).Nodup := by
        rw [map_fst_of_enc]
        exact hbv
      have h0 := roundtrip_lookup _ hnd2 p.1 (encodeVariableBasis p.2) hmem2
      have h2 := vget_of_plain _ p.1 _ h0
      rw [decode_encode_of_dom p.2 (by have := (hbvdom p hp).1; omega) (hbvdom p hp).2]
        at h2
      exact h2
    · intro p hp
      have hmem2 : (p.1, encodeConstraintBasis p.2)
          ∈ (bc.map fun q => (q.1, encodeConstraintBasis q.2)) :=
        List.mem_map.mpr ⟨p, hp, rfl⟩
      have hnd2 : ((bc.map fun q => (q.1, encodeConstraintBasis q.2)).map Prod.fst).Nodup := by
        rw [map_fst_of_enc]
        exact hbc
      have h0 := roundtrip_lookup _ hnd2 p.1 (encodeConstraintBasis p.2) hmem2
      have h2 := cget_of_plain _ p.1 _ h0
      rw [cdecode_encode_of_dom p.2 (hbcdom p hp)] at h2
      exact h2

/-- C8 witness: a one-variable, one-constraint bundle in each state kind
round-trips its appended values. -/
theorem c8_persist_roundtrip_witness :
    (∃ w, GurobiAugmented.save_warm_start_values 0 [("x", (1 : Rat)/2)] [("c", (3 : Rat))]
        = .ok w ∧
      ∃ w2, loadWarmStart (dumpWarmStart w) = .ok w2 ∧
        (∀ p ∈ [("x", (1 : Rat)/2)],
          (PicklableData.get_component w2.var_data p.1).1 = .ok p.2) ∧
        (∀ p ∈ [("c", (3 : Rat))],
          (PicklableData.get_component w2.const_data p.1).1 = .ok p.2)) ∧
    (∃ w, GurobiAugmented.save_warm_start_basis [("x", (-2 : Int))] [("d", (-1 : Int))]
        = .ok w ∧
      ∃ w2, loadWarmStart (dumpWarmStart w) = .ok w2 ∧
        (∀ p ∈ [("x", (-2 : Int))], (VBasis.get_component w2.var_data p.1).1 = .ok p.2) ∧
        (∀ p ∈ [("d", (-1 : Int))], (CBasis.get_component w2.const_data p.1).1 = .ok p.2)) := by
  exact c8_persist_roundtrip [("x", (1 : Rat)/2)] [("c", (3 : Rat))]
    [("x", (-2 : Int))] [("d", (-1 : Int))] 0
    (by decide) (by decide) (by decide) (by decide) (by decide) (by decide)
